import Mathlib

/-!
# Verification of the backtest trading core

Shallow embedding of the simulated execution driver
(`src/brokers/integrations/backtest/driver.py`), the CSV historical data
provider (`src/brokers/integrations/backtest/csv_provider.py`), the tick
scheduler (`src/backtest_engine.py`) and the risk gate
(`src/brokers/risk.py`).  Money, prices and quantities are modelled as
rationals; Python dicts become insertion-ordered association lists; the
Python `datetime` becomes a natural-number day index.
-/

set_option autoImplicit false

namespace Backtest

/-! ## Association lists (Python `dict` with insertion order) -/

/-- Look up a key (Python `d[k]` / `d.get(k)` as an `Option`). -/
def alGet {β : Type} (k : String) : List (String × β) → Option β
  | [] => none
  | (k', v) :: rest => if k' = k then some v else alGet k rest

/-- Update the value at a key, or append the binding at the end
(the insertion-order behaviour of a Python `dict` assignment). -/
def alSet {β : Type} (k : String) (v : β) : List (String × β) → List (String × β)
  | [] => [(k, v)]
  | (k', v') :: rest => if k' = k then (k, v) :: rest else (k', v') :: alSet k v rest

/-- Remove a key (Python `del d[k]`); removes the first binding. -/
def alErase {β : Type} (k : String) : List (String × β) → List (String × β)
  | [] => []
  | (k', v') :: rest => if k' = k then rest else (k', v') :: alErase k rest

/-- Number of bindings of a key; a well-formed dict image has at most one. -/
def keyCount {β : Type} (k : String) (l : List (String × β)) : ℕ :=
  (l.filter (fun p => p.1 = k)).length

/-! ## CSV historical data provider (`csv_provider.py`)

A cell of the option tables is either a parsed number, a numeric string
(pandas keeps mixed columns as text), or a non-numeric string such as the
`"-"` placeholder for an untraded contract. -/

inductive Cell where
  | num (q : ℚ)
  | numStr (q : ℚ)
  | junk (s : String)
  deriving Repr, DecidableEq

/-- Python `val == 0`: only a genuine number compares equal to `0`. -/
def Cell.pyEqZero : Cell → Bool
  | .num q => q = 0
  | .numStr _ => false
  | .junk _ => false

/-- Python `val == "-"`. -/
def Cell.pyEqDash : Cell → Bool
  | .num _ => false
  | .numStr _ => false
  | .junk s => s = "-"

/-- Python `float(val)`: `none` models the `ValueError` caught by the
bare `except` in `get_option_price`. -/
def Cell.pyFloat : Cell → Option ℚ
  | .num q => some q
  | .numStr q => some q
  | .junk _ => none

/-- One row of a CE/PE option table (`Date, Expiry, Strike Price, LTP, Close`). -/
structure OptRow where
  date : ℕ
  expiry : ℕ
  strike : ℚ
  ltp : Cell
  close : Cell
  deriving Repr, DecidableEq

/-- One row of the index table (only `Close` is ever read back). -/
structure IndexRow where
  date : ℕ
  close : ℚ
  deriving Repr, DecidableEq

/-- The provider's loaded tables; `none` models a file that was not found. -/
structure CsvProvider where
  index_data : Option (List IndexRow)
  ce_data : Option (List OptRow)
  pe_data : Option (List OptRow)
  deriving Repr, DecidableEq

/-- Parse the synthetic option symbol against
`NIFTY(\d{2})([A-Z]{3})(\d+)(CE|PE)` anchored at the start of the string
(`re.match`); returns `(strike, isCE)`.  The captured year and month are
never used by `get_option_price`, so they are not returned. -/
def parseOptionSymbol (s : String) : Option (ℚ × Bool) :=
  match s.toList with
  | 'N' :: 'I' :: 'F' :: 'T' :: 'Y' :: y1 :: y2 :: m1 :: m2 :: m3 :: rest =>
    if y1.isDigit && y2.isDigit && m1.isUpper && m2.isUpper && m3.isUpper then
      let digits := rest.takeWhile Char.isDigit
      let afterDigits := rest.dropWhile Char.isDigit
      if digits.isEmpty then none
      else
        let strike : ℕ := digits.foldl (fun n c => 10 * n + (c.toNat - '0'.toNat)) 0
        match afterDigits with
        | 'C' :: 'E' :: _ => some ((strike : ℚ), true)
        | 'P' :: 'E' :: _ => some ((strike : ℚ), false)
        | _ => none
    else none
  | _ => none

/-- Model of `CSVDataProvider.get_index_price`: exact calendar-date match on `Close`,
else pandas forward-fill (most recent date `≤` the requested one), else
`none`. -/
def getIndexPrice (prov : CsvProvider) (d : ℕ) : Option ℚ :=
  match prov.index_data with
  | none => none
  | some rows =>
    match rows.find? (fun r => r.date = d) with
    | some r => some r.close
    | none =>
      match ((rows.filter (fun r => r.date ≤ d)).map (fun r => r.date)).max? with
      | none => none
      | some ld => (rows.find? (fun r => r.date = ld)).map (fun r => r.close)

/-- Row selection of `CSVDataProvider.get_option_price`: exact
`(date, strike)` match, else the rows of the most recent date `≤ d` in the
whole table restricted to the strike, then `subset.iloc[0]`. -/
def selectPriceRow (rows : List OptRow) (strike : ℚ) (d : ℕ) : Option OptRow :=
  let subset := rows.filter (fun r => r.date = d ∧ r.strike = strike)
  let subset :=
    if subset.isEmpty then
      match ((rows.filter (fun r => r.date ≤ d)).map (fun r => r.date)).max? with
      | none => []
      | some ld => rows.filter (fun r => r.date = ld ∧ r.strike = strike)
    else subset
  subset.head?

/-- The LTP/Close preference of `get_option_price` applied to a found row:
`if val == "-" or pd.isna(val) or val == 0: val = Close`, then
`float(val) if val != "-" else 0.0` under a bare `except: return 0.0`. -/
def priceFromRow (row : OptRow) : ℚ :=
  let val := if row.ltp.pyEqDash || row.ltp.pyEqZero then row.close else row.ltp
  if val.pyEqDash then 0
  else match val.pyFloat with
    | some p => p
    | none => 0

/-- Model of `CSVDataProvider.get_option_price`. -/
def getOptionPrice (prov : CsvProvider) (symbol : String) (d : ℕ) : ℚ :=
  match parseOptionSymbol symbol with
  | none => 0
  | some (strike, isCE) =>
    match (if isCE then prov.ce_data else prov.pe_data) with
    | none => 0
    | some rows =>
      match selectPriceRow rows strike d with
      | none => 0
      | some row => priceFromRow row

/-- The snapshot returned by `get_option_chain` (synthetic per-row symbols
are attached by the source but carry no information beyond the row). -/
structure ChainSnapshot where
  ce : List OptRow
  pe : List OptRow
  date : ℕ
  expiry : Option ℕ
  deriving Repr, DecidableEq

/-- Near-month filtering of `get_option_chain`: `near_expiry` is the minimum
of the **CE** subset's expiries (`NaN` — here `none` — when that subset is
empty, in which case both `== NaN` filters keep nothing). -/
def buildSnapshot (ceS peS : List OptRow) (d : ℕ) : ChainSnapshot :=
  match (ceS.map (fun r => r.expiry)).min? with
  | none => { ce := [], pe := [], date := d, expiry := none }
  | some e =>
    let ceChain := ceS.filter (fun r => r.expiry = e)
    { ce := ceChain
      pe := peS.filter (fun r => r.expiry = e)
      date := match ceChain.head? with
        | some r => r.date
        | none => d
      expiry := some e }

/-- Model of `CSVDataProvider.get_option_chain`: restrict both tables to the exact
date; if both restrictions are empty, fall back to the most recent date
`≤ d` **of the CE table** (`self.ce_data[self.ce_data['Date'] <= date]
['Date'].max()`), failing to `none` when the CE table has no such date. -/
def getOptionChain (prov : CsvProvider) (d : ℕ) : Option ChainSnapshot :=
  match prov.ce_data, prov.pe_data with
  | some ce, some pe =>
    let ceS := ce.filter (fun r => r.date = d)
    let peS := pe.filter (fun r => r.date = d)
    if ceS.isEmpty ∧ peS.isEmpty then
      match ((ce.filter (fun r => r.date ≤ d)).map (fun r => r.date)).max? with
      | none => none
      | some ld =>
        some (buildSnapshot (ce.filter (fun r => r.date = ld))
          (pe.filter (fun r => r.date = ld)) d)
    else
      some (buildSnapshot ceS peS d)
  | _, _ => none

/-! ## Data model of the simulated execution driver -/

/-- Model of `Position` record (constructed in `BacktestDriver._execute_trade`);
`pnl` defaults to `0` at creation and is maintained by `set_price`. -/
structure Position where
  symbol : String
  exchange : String
  quantity_total : ℚ
  quantity_available : ℚ
  average_price : ℚ
  pnl : ℚ := 0
  deriving Repr, DecidableEq

/-- Order side (`TransactionType`). -/
inductive Side where
  | BUY
  | SELL
  deriving Repr, DecidableEq

/-- The order/trade record (`order_entry` dict built in `place_order`;
the trade log stores the same record). -/
structure Order where
  order_id : String
  symbol : String
  exchange : String
  transaction_type : Side
  quantity : ℚ
  order_type : String
  price : ℚ
  status : String
  timestamp : Option ℕ
  tag : String
  deriving Repr, DecidableEq

/-- An abstract order request (`OrderRequest`). -/
structure OrderRequest where
  symbol : String
  exchange : String
  transaction_type : Side
  quantity : ℚ
  order_type : String
  tag : String
  deriving Repr, DecidableEq

/-- Result of `place_order` (`OrderResponse`). -/
structure OrderResponse where
  status : String
  order_id : Option String
  message : Option String
  deriving Repr, DecidableEq

/-- Model of `Funds` as returned by `get_funds`. -/
structure Funds where
  equity : ℚ
  available_cash : ℚ
  used_margin : ℚ
  net : ℚ
  deriving Repr, DecidableEq

/-- Mutable state of `BacktestDriver` (the in-memory ledger).  The
`instruments_df` field carries no ledger information and is omitted. -/
structure DriverState where
  initial_capital : ℚ
  current_cash : ℚ
  positions : List (String × Position)
  orders : List Order
  trades : List Order
  current_time : Option ℕ
  current_prices : List (String × ℚ)
  csv_provider : Option CsvProvider
  deriving Repr, DecidableEq

/-- A fresh `BacktestDriver(initial_capital)`. -/
def DriverState.init (initial_capital : ℚ) : DriverState :=
  { initial_capital := initial_capital
    current_cash := initial_capital
    positions := []
    orders := []
    trades := []
    current_time := none
    current_prices := []
    csv_provider := none }

/-- Model of `BacktestDriver.set_current_time`. -/
def setCurrentTime (s : DriverState) (t : ℕ) : DriverState :=
  { s with current_time := some t }

/-- Python substring test `sub in s`. -/
def containsSub (s sub : String) : Bool :=
  (List.range (s.length + 1)).any (fun i => sub.isPrefixOf (s.drop i))

/-- The price resolution of `BacktestDriver.get_quote`: the stored mark,
falling back to the CSV provider for NIFTY option/index symbols when the
mark is missing or zero; `Quote.last_price` is `price or 0.0`, so a `None`
from `get_index_price` collapses to `0`. -/
def resolvePrice (s : DriverState) (symbol : String) : ℚ :=
  let price := (alGet symbol s.current_prices).getD 0
  if price ≠ 0 then price
  else
    match s.csv_provider, s.current_time with
    | some prov, some t =>
      if containsSub symbol "NIFTY" &&
          (containsSub symbol "CE" || containsSub symbol "PE") then
        getOptionPrice prov symbol t
      else if containsSub symbol "NIFTY" then
        (getIndexPrice prov t).getD 0
      else 0
    | _, _ => 0

/-- Model of `BacktestDriver.set_price`: store the mark and refresh the unrealized
P&L of an open position on that symbol. -/
def setPrice (s : DriverState) (symbol : String) (price : ℚ) : DriverState :=
  let s := { s with current_prices := alSet symbol price s.current_prices }
  match alGet symbol s.positions with
  | none => s
  | some pos =>
    let pnl :=
      if pos.quantity_total < 0 then
        (pos.average_price - price) * |pos.quantity_total|
      else
        (price - pos.average_price) * pos.quantity_total
    let pos' := { pos with pnl := pnl }
    { s with positions := alSet symbol pos' s.positions }

/-- Model of `BacktestDriver.get_funds`: equity is cash plus, per position, unrealized
P&L plus `quantity × average price`; used margin charges 1 lakh per 50-lot
on short positions only. -/
def getFunds (s : DriverState) : Funds :=
  let equity := s.positions.foldl
    (fun acc p => acc + p.2.pnl + p.2.quantity_total * p.2.average_price)
    s.current_cash
  let used_margin := s.positions.foldl
    (fun acc p =>
      if p.2.quantity_total < 0 then acc + |p.2.quantity_total / 50| * 100000
      else acc)
    0
  { equity := equity
    available_cash := s.current_cash
    used_margin := used_margin
    net := equity }

/-- Model of `BacktestDriver._execute_trade`: move cash by the trade value, update or
create the position (same-direction BUY extensions blend the average price;
SELL never touches the stored average), delete it when the new quantity is
exactly zero, and append the fill to the trade log. -/
def executeTrade (s : DriverState) (o : Order) : DriverState :=
  let trade_value := o.quantity * o.price
  let s' :=
    match o.transaction_type with
    | .BUY =>
      let s := { s with current_cash := s.current_cash - trade_value }
      match alGet o.symbol s.positions with
      | some pos =>
        let new_qty := pos.quantity_total + o.quantity
        if new_qty = 0 then
          { s with positions := alErase o.symbol s.positions }
        else
          let pos' := { pos with
            average_price :=
              (pos.average_price * pos.quantity_total + trade_value) / new_qty
            quantity_total := new_qty
            quantity_available := new_qty }
          { s with positions := alSet o.symbol pos' s.positions }
      | none =>
        let pos' : Position := {
          symbol := o.symbol
          exchange := o.exchange
          quantity_total := o.quantity
          quantity_available := o.quantity
          average_price := o.price
          pnl := 0 }
        { s with positions := alSet o.symbol pos' s.positions }
    | .SELL =>
      let s := { s with current_cash := s.current_cash + trade_value }
      match alGet o.symbol s.positions with
      | some pos =>
        let new_qty := pos.quantity_total - o.quantity
        if new_qty = 0 then
          { s with positions := alErase o.symbol s.positions }
        else
          let pos' := { pos with
            quantity_total := new_qty
            quantity_available := new_qty }
          { s with positions := alSet o.symbol pos' s.positions }
      | none =>
        let pos' : Position := {
          symbol := o.symbol
          exchange := o.exchange
          quantity_total := -o.quantity
          quantity_available := -o.quantity
          average_price := o.price
          pnl := 0 }
        { s with positions := alSet o.symbol pos' s.positions }
  { s' with trades := s'.trades ++ [o] }

/-- The margin condition of `place_order` for SELL requests:
`(quantity / 50) * 100000 > equity - used_margin`. -/
def marginExceeded (s : DriverState) (req : OrderRequest) : Prop :=
  req.quantity / 50 * 100000 > (getFunds s).equity - (getFunds s).used_margin

instance (s : DriverState) (req : OrderRequest) :
    Decidable (marginExceeded s req) := by
  unfold marginExceeded; infer_instance

/-- The order record built by `place_order`. -/
def mkOrderEntry (s : DriverState) (req : OrderRequest) (price : ℚ) : Order :=
  { order_id := "BT" ++ toString (s.orders.length + 1)
    symbol := req.symbol
    exchange := req.exchange
    transaction_type := req.transaction_type
    quantity := req.quantity
    order_type := req.order_type
    price := price
    status := "COMPLETE"
    timestamp := s.current_time
    tag := req.tag }

/-- Model of `BacktestDriver.place_order`: resolve a price (reject `"No price"` when
it is zero), apply the SELL-side margin gate, then log the order and execute
it immediately. -/
def placeOrder (s : DriverState) (req : OrderRequest) : OrderResponse × DriverState :=
  let price := resolvePrice s req.symbol
  if price = 0 then
    ({ status := "error", order_id := none,
       message := some ("No price for " ++ req.symbol) }, s)
  else if req.transaction_type = Side.SELL ∧ marginExceeded s req then
    ({ status := "error", order_id := none,
       message := some "Insufficient Margin" }, s)
  else
    let entry := mkOrderEntry s req price
    let s := { s with orders := s.orders ++ [entry] }
    let s := executeTrade s entry
    ({ status := "ok", order_id := some entry.order_id, message := none }, s)

/-- Model of `BacktestDriver.cancel_order`: unconditional success, no state change. -/
def cancelOrderDriver (s : DriverState) (order_id : String) :
    OrderResponse × DriverState :=
  ({ status := "ok", order_id := some order_id,
     message := some "Order already executed or cancelled" }, s)

/-! ## Tick scheduler (`BacktestEngine.run`)

The contract-roll notification and `download_instruments` calls mutate only
strategy/instrument metadata, never the ledger or the throttle, and are
elided.  A historical row is its simulated time plus either a full OHLC bar
or a single close price. -/

inductive RowData where
  | ohlc (o h l c : ℚ)
  | closeOnly (c : ℚ)
  deriving Repr, DecidableEq

structure Row where
  time : ℕ
  data : RowData
  deriving Repr, DecidableEq

/-- Line 137: `[Open, High, Low, Close] if 'Open' in row else [close]`. -/
def subTickPrices : RowData → List ℚ
  | .ohlc o h l c => [o, h, l, c]
  | .closeOnly c => [c]

/-- Line 130: `row['Close'] if 'Close' in row else row['close']`. -/
def rowClose : RowData → ℚ
  | .ohlc _ _ _ c => c
  | .closeOnly c => c

/-- Model of `current_time.date().isoformat()` — the throttle key of a tick's day. -/
def dateKey (t : ℕ) : String := toString t

structure EngineConfig where
  index_symbol : String
  max_trades_per_day : ℕ

/-- The strategy callback `on_ticks_update(tick)`; it sees the tick's price
and date and acts on the driver (placing orders etc.). -/
def Callback : Type := ℚ → String → DriverState → DriverState

/-- Engine-side mutable state: the per-day counter and the driver. -/
structure EngineState where
  counts : List (String × ℕ)
  driver : DriverState

/-- One iteration of the held-mark refresh loop (lines 144-148): re-query a
held symbol's quote and re-set its price unless it is the index or the
quote is falsy (zero). -/
def refreshStep (cfg : EngineConfig) (d : DriverState) (sym : String) : DriverState :=
  if sym ≠ cfg.index_symbol then
    let lp := resolvePrice d sym
    if lp ≠ 0 then setPrice d sym lp else d
  else d

/-- Lines 143-148: refresh marks (and hence P&L) of every held symbol other
than the index by re-querying its quote; a falsy (zero) quote is skipped. -/
def refreshHeldMarks (cfg : EngineConfig) (d : DriverState) : DriverState :=
  (d.positions.map Prod.fst).foldl (refreshStep cfg) d

/-- What happened at one sub-tick: its price, its throttle day and whether
the callback was invoked. -/
structure TickEvent where
  price : ℚ
  date : String
  delivered : Bool
  deriving Repr, DecidableEq

/-- Lines 139-167: one sub-tick.  Set the index mark, refresh held marks,
read the day's trade count, deliver the tick only under the ceiling, and
bump the day's counter by the growth of the driver's trade log. -/
def engineSubTick (cfg : EngineConfig) (cb : Callback) (dateStr : String)
    (p : ℚ) (es : EngineState) : EngineState × TickEvent :=
  let d := setPrice es.driver cfg.index_symbol p
  let d := refreshHeldMarks cfg d
  let trades_today := (alGet dateStr es.counts).getD 0
  let pre := d.trades.length
  let d' := if trades_today < cfg.max_trades_per_day then cb p dateStr d else d
  let post := d'.trades.length
  let counts' :=
    if post > pre then alSet dateStr (trades_today + (post - pre)) es.counts
    else es.counts
  (⟨counts', d'⟩, ⟨p, dateStr, trades_today < cfg.max_trades_per_day⟩)

/-- All sub-ticks of one row, left to right. -/
def engineSubTicks (cfg : EngineConfig) (cb : Callback) (dateStr : String) :
    List ℚ → EngineState → EngineState × List TickEvent
  | [], es => (es, [])
  | p :: ps, es =>
    let r := engineSubTick cfg cb dateStr p es
    let rest := engineSubTicks cfg cb dateStr ps r.1
    (rest.1, r.2 :: rest.2)

/-- Lines 106-167: the row loop with its `skip_first_day` flag.  The first
processed row only re-seeds the mark and the clock; later rows expand into
sub-ticks. -/
def engineLoop (cfg : EngineConfig) (cb : Callback) :
    List Row → Bool → EngineState → EngineState × List TickEvent
  | [], _, es => (es, [])
  | r :: rest, skipFirst, es =>
    let d := setCurrentTime es.driver r.time
    if skipFirst then
      let d := setPrice d cfg.index_symbol (rowClose r.data)
      engineLoop cfg cb rest false ⟨es.counts, d⟩
    else
      let step := engineSubTicks cfg cb (dateKey r.time) (subTickPrices r.data)
        ⟨es.counts, d⟩
      let tail := engineLoop cfg cb rest false step.1
      (tail.1, step.2 ++ tail.2)

/-- Model of `BacktestEngine.run` on a row stream: an empty stream aborts before any
mutation; otherwise the pre-loop seeding (lines 90-95) sets the clock and
the mark from the first row, then the loop runs with `skip_first_day`. -/
def engineRun (cfg : EngineConfig) (cb : Callback) (rows : List Row)
    (es : EngineState) : EngineState × List TickEvent :=
  match rows with
  | [] => (es, [])
  | r0 :: _ =>
    let d := setPrice (setCurrentTime es.driver r0.time) cfg.index_symbol
      (rowClose r0.data)
    engineLoop cfg cb rows true ⟨es.counts, d⟩

/-! ## Risk gate (`MasterRiskController`, `src/brokers/risk.py`) -/

structure RiskState where
  max_global_drawdown : ℚ
  max_orders_per_minute : ℕ
  global_pnl : ℚ
  is_halted : Bool
  order_timestamps : List ℚ
  deriving Repr, DecidableEq

/-- A fresh `MasterRiskController` (risk constants from `__init__`). -/
def RiskState.init : RiskState :=
  { max_global_drawdown := 5000
    max_orders_per_minute := 30
    global_pnl := 0
    is_halted := false
    order_timestamps := [] }

/-- Model of `update_global_pnl`: store the combined P&L and latch `is_halted` when
it is at or below minus the absolute drawdown threshold. -/
def updateGlobalPnl (s : RiskState) (realized unrealized : ℚ) : RiskState :=
  let pnl := realized + unrealized
  { s with
    global_pnl := pnl
    is_halted := if pnl ≤ -|s.max_global_drawdown| then true else s.is_halted }

/-- Outcome of a gate call: a structured rejection, or the call forwarded to
the wrapped backend. -/
inductive GateResult where
  | rejected (msg : String)
  | forwardedPlace (req : OrderRequest)
  | forwardedCancel (order_id : String)
  deriving Repr, DecidableEq

/-- Model of `MasterRiskController.place_order` with `_check_velocity` inlined
(`now` stands for `time.time()`): a halted gate rejects before anything else;
otherwise old timestamps are dropped, the velocity window is checked, and an
accepted order records its timestamp and is forwarded. -/
def riskPlaceOrder (s : RiskState) (now : ℚ) (req : OrderRequest) :
    GateResult × RiskState :=
  if s.is_halted then (.rejected "Risk System Halted", s)
  else
    let ts := s.order_timestamps.filter (fun t => now - t < 60)
    if ts.length ≥ s.max_orders_per_minute then
      (.rejected "Velocity Limit Exceeded", { s with order_timestamps := ts })
    else
      (.forwardedPlace req, { s with order_timestamps := ts ++ [now] })

/-- Model of `MasterRiskController.cancel_order`: always forwarded, even when halted. -/
def riskCancelOrder (s : RiskState) (order_id : String) :
    GateResult × RiskState :=
  (.forwardedCancel order_id, s)

/-- Any call a client can make on the gate for the life of the instance. -/
inductive GateOp where
  | update (realized unrealized : ℚ)
  | place (now : ℚ) (req : OrderRequest)
  | cancel (order_id : String)

def applyGateOp (s : RiskState) : GateOp → RiskState
  | .update r u => updateGlobalPnl s r u
  | .place now req => (riskPlaceOrder s now req).2
  | .cancel oid => (riskCancelOrder s oid).2

def applyGateOps (s : RiskState) (ops : List GateOp) : RiskState :=
  ops.foldl applyGateOp s

/-! ## Helper definitions for concrete scenarios -/

/-- A market order request. -/
def mkReq (side : Side) (sym : String) (q : ℚ) : OrderRequest :=
  { symbol := sym
    exchange := "NFO"
    transaction_type := side
    quantity := q
    order_type := "MARKET"
    tag := "" }

/-- One fill as fed to `_execute_trade`: a side, a (positive) quantity and
an execution price. -/
structure Fill where
  side : Side
  qty : ℚ
  price : ℚ
  deriving Repr, DecidableEq

/-- The trade record carrying a fill for a symbol. -/
def fillOrder (sym : String) (f : Fill) : Order :=
  { order_id := ""
    symbol := sym
    exchange := "NFO"
    transaction_type := f.side
    quantity := f.qty
    order_type := "MARKET"
    price := f.price
    status := "COMPLETE"
    timestamp := none
    tag := "" }

/-- Run a sequence of fills on one symbol through `_execute_trade`. -/
def applyFills (sym : String) (s : DriverState) (fills : List Fill) : DriverState :=
  fills.foldl (fun s f => executeTrade s (fillOrder sym f)) s

/-- The signed contribution of a fill to the position quantity
(BUY positive, SELL negative). -/
def signedQty : Side → ℚ → ℚ
  | .BUY, q => q
  | .SELL, q => -q

/-- Signed sum of the fill quantities of a sequence. -/
def signedSum (fills : List Fill) : ℚ :=
  (fills.map (fun f => signedQty f.side f.qty)).sum

/-- The stored position quantity for a symbol, when present. -/
def optQty (s : DriverState) (sym : String) : Option ℚ :=
  (alGet sym s.positions).map Position.quantity_total

/-- A strategy callback that places one market BUY of one unit of a fixed
symbol on every tick it receives. -/
def oneOrderCb (sym : String) : Callback :=
  fun _p _date drv => (placeOrder drv (mkReq .BUY sym 1)).2

/-- A strategy callback that places three market BUY orders of one unit of
a fixed symbol on every tick it receives. -/
def threeOrderCb (sym : String) : Callback :=
  fun _p _date drv =>
    let d1 := (placeOrder drv (mkReq .BUY sym 1)).2
    let d2 := (placeOrder d1 (mkReq .BUY sym 1)).2
    (placeOrder d2 (mkReq .BUY sym 1)).2

/-- A strategy callback that never touches the driver. -/
def idleCb : Callback := fun _ _ drv => drv

/-- The ordered sub-tick prices generated by a row stream. -/
def rowPrices : List Row → List ℚ
  | [] => []
  | r :: rest => subTickPrices r.data ++ rowPrices rest

/-! ## Lemmas about association lists -/

theorem alGet_alSet_self {β : Type} (k : String) (v : β) :
    ∀ l : List (String × β), alGet k (alSet k v l) = some v := by
  intro l
  induction l with
  | nil => simp [alSet, alGet]
  | cons hd tl ih =>
    obtain ⟨k', v'⟩ := hd
    by_cases h : k' = k
    · simp [alSet, h, alGet]
    · simp [alSet, h, alGet, ih]

theorem alGet_alSet_other {β : Type} (k k' : String) (v : β) (hne : k ≠ k') :
    ∀ l : List (String × β), alGet k' (alSet k v l) = alGet k' l := by
  intro l
  induction l with
  | nil => simp [alSet, alGet, hne]
  | cons hd tl ih =>
    obtain ⟨k0, v0⟩ := hd
    by_cases h : k0 = k
    · subst h; simp [alSet, alGet, hne]
    · simp only [alSet, if_neg h, alGet]
      by_cases h2 : k0 = k'
      · simp [h2]
      · simp [h2, ih]

theorem keyCount_cons_eq {β : Type} (k k' : String) (v' : β) (tl : List (String × β))
    (h : k' = k) : keyCount k ((k', v') :: tl) = keyCount k tl + 1 := by
  simp [keyCount, List.filter, h]

theorem keyCount_cons_ne {β : Type} (k k' : String) (v' : β) (tl : List (String × β))
    (h : ¬ k' = k) : keyCount k ((k', v') :: tl) = keyCount k tl := by
  simp [keyCount, List.filter, h]

theorem alGet_eq_none_of_keyCount_zero {β : Type} (k : String) :
    ∀ l : List (String × β), keyCount k l = 0 → alGet k l = none := by
  intro l
  induction l with
  | nil => intro _; rfl
  | cons hd tl ih =>
    obtain ⟨k', v'⟩ := hd
    intro hc
    by_cases h : k' = k
    · rw [keyCount_cons_eq k k' v' tl h] at hc
      omega
    · rw [keyCount_cons_ne k k' v' tl h] at hc
      simp [alGet, h, ih hc]

theorem keyCount_alSet {β : Type} (k : String) (v : β) :
    ∀ l : List (String × β), keyCount k l ≤ 1 → keyCount k (alSet k v l) = 1 := by
  intro l
  induction l with
  | nil => intro _; simp [alSet, keyCount, List.filter]
  | cons hd tl ih =>
    obtain ⟨k', v'⟩ := hd
    intro htl
    by_cases h : k' = k
    · rw [keyCount_cons_eq k k' v' tl h] at htl
      have h0 : keyCount k tl = 0 := by omega
      subst h
      show keyCount k' (alSet k' v ((k', v') :: tl)) = 1
      simp only [alSet, if_true, eq_self_iff_true]
      rw [keyCount_cons_eq k' k' v tl rfl, h0]
    · rw [keyCount_cons_ne k k' v' tl h] at htl
      simp [alSet, h, keyCount_cons_ne k k' v' _ h, ih htl]

theorem alGet_alErase_self {β : Type} (k : String) :
    ∀ l : List (String × β), keyCount k l ≤ 1 → alGet k (alErase k l) = none := by
  intro l
  induction l with
  | nil => intro _; rfl
  | cons hd tl ih =>
    obtain ⟨k', v'⟩ := hd
    intro htl
    by_cases h : k' = k
    · rw [keyCount_cons_eq k k' v' tl h] at htl
      subst h
      simp only [alErase, if_true, eq_self_iff_true]
      exact alGet_eq_none_of_keyCount_zero k' tl (by omega)
    · rw [keyCount_cons_ne k k' v' tl h] at htl
      simp [alErase, h, alGet, ih htl]

theorem keyCount_alErase {β : Type} (k : String) :
    ∀ l : List (String × β), keyCount k l ≤ 1 → keyCount k (alErase k l) = 0 := by
  intro l
  induction l with
  | nil => intro _; rfl
  | cons hd tl ih =>
    obtain ⟨k', v'⟩ := hd
    intro htl
    by_cases h : k' = k
    · rw [keyCount_cons_eq k k' v' tl h] at htl
      subst h
      show keyCount k' (alErase k' ((k', v') :: tl)) = 0
      simp only [alErase, if_true, eq_self_iff_true]
      omega
    · rw [keyCount_cons_ne k k' v' tl h] at htl
      simp [alErase, h, keyCount_cons_ne k k' v' _ h, ih htl]

/-! ## Shared lemmas about the driver -/

theorem executeTrade_trades (s : DriverState) (o : Order) :
    (executeTrade s o).trades = s.trades ++ [o] := by
  unfold executeTrade
  cases o.transaction_type <;>
    rcases h : alGet o.symbol s.positions with _ | pos <;>
    simp [h] <;> split <;> simp

theorem executeTrade_orders (s : DriverState) (o : Order) :
    (executeTrade s o).orders = s.orders := by
  unfold executeTrade
  cases o.transaction_type <;>
    rcases h : alGet o.symbol s.positions with _ | pos <;>
    simp [h] <;> split <;> simp

theorem executeTrade_cash_buy (s : DriverState) (o : Order)
    (hside : o.transaction_type = Side.BUY) :
    (executeTrade s o).current_cash = s.current_cash - o.quantity * o.price := by
  unfold executeTrade
  rw [hside]
  rcases h : alGet o.symbol s.positions with _ | pos <;>
    simp [h] <;> split <;> simp

/-! ## Claim theorems -/

/-- C1: the claim states that two same-direction fills always leave the
quantity-weighted average price, for BUY extensions and SELL extensions
alike, independent of order.  The code's SELL branch never updates
`average_price` when extending a short, so two SELL fills of `(1,10)` then
`(1,20)` leave average `10`, the reversed order leaves `20`, and neither is
the weighted mean `15`. -/
theorem c1_short_extension_average_not_blended :
    optQty (placeOrder (setPrice (placeOrder (setPrice (DriverState.init 100000)
        "X" 10) (mkReq .SELL "X" 1)).2 "X" 20) (mkReq .SELL "X" 1)).2 "X"
      = some (-2) ∧
    (alGet "X" (placeOrder (setPrice (placeOrder (setPrice (DriverState.init 100000)
        "X" 10) (mkReq .SELL "X" 1)).2 "X" 20) (mkReq .SELL "X" 1)).2.positions).map
      Position.average_price = some 10 ∧
    (alGet "X" (placeOrder (setPrice (placeOrder (setPrice (DriverState.init 100000)
        "X" 20) (mkReq .SELL "X" 1)).2 "X" 10) (mkReq .SELL "X" 1)).2.positions).map
      Position.average_price = some 20 ∧
    (1 * 10 + 1 * 20 : ℚ) / (1 + 1) = 15 ∧
    (10 : ℚ) ≠ 15 ∧ (20 : ℚ) ≠ 15 := by
  refine ⟨?_, ?_, ?_, by norm_num, by norm_num, by norm_num⟩ <;>
    norm_num [placeOrder, resolvePrice, marginExceeded, getFunds, executeTrade,
      mkOrderEntry, setPrice, setCurrentTime, alGet, alSet, alErase, optQty,
      mkReq, DriverState.init, abs_of_pos, abs_of_nonpos]

/-- C2 (counterexample): a SELL whose required margin exceeds available
margin but whose symbol has no resolvable price is rejected by the earlier
`"No price"` check, so the response does not mention insufficient margin,
contradicting the claim as stated. -/
theorem c2_counterexample_no_price_sell :
    let d0 := DriverState.init 100000
    let req := mkReq .SELL "X" 100
    marginExceeded d0 req ∧
    (placeOrder d0 req).1.status = "error" ∧
    (placeOrder d0 req).1.message = some "No price for X" ∧
    (placeOrder d0 req).1.message ≠ some "Insufficient Margin" := by
  refine ⟨?_, ?_, ?_, ?_⟩ <;>
    norm_num [placeOrder, resolvePrice, marginExceeded, getFunds, executeTrade,
      mkOrderEntry, setPrice, setCurrentTime, alGet, alSet, alErase,
      mkReq, DriverState.init, abs_of_pos, abs_of_nonpos] <;> decide

/-- C2 (amended): for every SELL whose resolved price is nonzero and whose
required margin `(quantity/50)·100000` exceeds equity minus used margin,
`place_order` returns the `"Insufficient Margin"` error and the state is
returned unchanged — no cash, position, order-log or trade-log mutation. -/
theorem c2_sell_margin_rejected_no_mutation (s : DriverState) (req : OrderRequest)
    (hside : req.transaction_type = Side.SELL)
    (hprice : resolvePrice s req.symbol ≠ 0)
    (hmargin : marginExceeded s req) :
    placeOrder s req =
      ({ status := "error", order_id := none,
         message := some "Insufficient Margin" }, s) := by
  unfold placeOrder
  rw [if_neg hprice, if_pos ⟨hside, hmargin⟩]

/-- C2 witness: a concrete margin-starved SELL with a live mark. -/
theorem c2_sell_margin_rejected_witness :
    resolvePrice (setPrice (DriverState.init 100000) "X" 10) "X" ≠ 0 ∧
    marginExceeded (setPrice (DriverState.init 100000) "X" 10)
      (mkReq .SELL "X" 100) ∧
    placeOrder (setPrice (DriverState.init 100000) "X" 10) (mkReq .SELL "X" 100) =
      ({ status := "error", order_id := none,
         message := some "Insufficient Margin" },
       setPrice (DriverState.init 100000) "X" 10) := by
  have h1 : resolvePrice (setPrice (DriverState.init 100000) "X" 10) "X" ≠ 0 := by
    norm_num [resolvePrice, setPrice, alGet, alSet, DriverState.init]
  have h2 : marginExceeded (setPrice (DriverState.init 100000) "X" 10)
      (mkReq .SELL "X" 100) := by
    norm_num [marginExceeded, getFunds, setPrice, alGet, alSet, mkReq,
      DriverState.init, abs_of_pos, abs_of_nonpos]
  exact ⟨h1, h2, c2_sell_margin_rejected_no_mutation _ _ rfl h1 h2⟩

/-- C9: a BUY whose resolved price is nonzero always executes in full —
status "ok", the fill appended to the trade log, cash debited by
quantity times price with no cash-sufficiency check — and a concrete pair
of BUY fills drives cash to `-20000 < 0` with both responses "ok". -/
theorem c9_buy_has_no_cash_check :
    (∀ (s : DriverState) (req : OrderRequest),
      req.transaction_type = Side.BUY →
      resolvePrice s req.symbol ≠ 0 →
      (placeOrder s req).1.status = "ok" ∧
      (placeOrder s req).2.trades
        = s.trades ++ [mkOrderEntry s req (resolvePrice s req.symbol)] ∧
      (placeOrder s req).2.current_cash
        = s.current_cash - req.quantity * resolvePrice s req.symbol) ∧
    ((placeOrder (setPrice (DriverState.init 100000) "Y" 60000)
        (mkReq .BUY "Y" 1)).1.status = "ok" ∧
     (placeOrder (placeOrder (setPrice (DriverState.init 100000) "Y" 60000)
        (mkReq .BUY "Y" 1)).2 (mkReq .BUY "Y" 1)).1.status = "ok" ∧
     (placeOrder (placeOrder (setPrice (DriverState.init 100000) "Y" 60000)
        (mkReq .BUY "Y" 1)).2 (mkReq .BUY "Y" 1)).2.current_cash = -20000 ∧
     (placeOrder (placeOrder (setPrice (DriverState.init 100000) "Y" 60000)
        (mkReq .BUY "Y" 1)).2 (mkReq .BUY "Y" 1)).2.current_cash < 0) := by
  constructor
  · intro s req hside hprice
    unfold placeOrder
    rw [if_neg hprice, if_neg (by simp [hside])]
    refine ⟨rfl, ?_, ?_⟩
    · rw [executeTrade_trades]
    · rw [executeTrade_cash_buy]
      · rfl
      · exact hside
  · refine ⟨?_, ?_, ?_, ?_⟩ <;>
      norm_num [placeOrder, resolvePrice, marginExceeded, getFunds, executeTrade,
        mkOrderEntry, setPrice, setCurrentTime, alGet, alSet, alErase,
        mkReq, DriverState.init, abs_of_pos, abs_of_nonpos]

/-- C9 witness: the universal part applied to a concrete funded BUY. -/
theorem c9_buy_has_no_cash_check_witness :
    resolvePrice (setPrice (DriverState.init 100000) "Y" 60000) "Y" ≠ 0 ∧
    (placeOrder (setPrice (DriverState.init 100000) "Y" 60000)
      (mkReq .BUY "Y" 1)).1.status = "ok" := by
  have h : resolvePrice (setPrice (DriverState.init 100000) "Y" 60000) "Y" ≠ 0 := by
    norm_num [resolvePrice, setPrice, alGet, alSet, DriverState.init]
  exact ⟨h, (c9_buy_has_no_cash_check.1 _ _ rfl h).1⟩

theorem keyCount_zero_of_alGet_none {β : Type} (k : String) :
    ∀ l : List (String × β), alGet k l = none → keyCount k l = 0 := by
  intro l
  induction l with
  | nil => intro _; rfl
  | cons hd tl ih =>
    obtain ⟨k', v'⟩ := hd
    intro hg
    by_cases h : k' = k
    · simp [alGet, h] at hg
    · simp only [alGet, if_neg h] at hg
      rw [keyCount_cons_ne k k' v' tl h]
      exact ih hg

/-- One `_execute_trade` fill moves the stored quantity for its symbol from
`A` to `A` plus the signed fill quantity, deleting the position exactly at
zero, and keeps the positions dict well formed. -/
theorem executeTrade_optQty_step (s : DriverState) (sym : String) (f : Fill)
    (hq : 0 < f.qty) (hcount : keyCount sym s.positions ≤ 1) (A : ℚ)
    (hinv : optQty s sym = if A = 0 then none else some A) :
    keyCount sym (executeTrade s (fillOrder sym f)).positions ≤ 1 ∧
    optQty (executeTrade s (fillOrder sym f)) sym
      = if A + signedQty f.side f.qty = 0 then none
        else some (A + signedQty f.side f.qty) := by
  obtain ⟨side, q, p⟩ := f
  simp only at hq
  cases side with
  | BUY =>
    simp only [signedQty]
    rcases hget : alGet sym s.positions with _ | pos
    · have hA0 : A = 0 := by
        by_contra hA
        rw [optQty, hget, if_neg hA] at hinv
        exact Option.noConfusion hinv
      subst hA0
      have hkc : keyCount sym s.positions = 0 := keyCount_zero_of_alGet_none sym _ hget
      have hres : (executeTrade s (fillOrder sym ⟨.BUY, q, p⟩)).positions
          = alSet sym ⟨sym, "NFO", q, q, p, 0⟩ s.positions := by
        simp [executeTrade, fillOrder, hget]
      constructor
      · rw [hres, keyCount_alSet sym _ _ hcount]
      · rw [optQty, hres, alGet_alSet_self, zero_add, if_neg (ne_of_gt hq)]
        rfl
    · have hinv' : pos.quantity_total = A ∧ A ≠ 0 := by
        by_cases hA : A = 0
        · rw [optQty, hget, if_pos hA] at hinv
          exact absurd hinv (by simp)
        · rw [optQty, hget, if_neg hA] at hinv
          simp at hinv
          exact ⟨hinv, hA⟩
      obtain ⟨hqt, hAne⟩ := hinv'
      by_cases hz : pos.quantity_total + q = 0
      · have hres : (executeTrade s (fillOrder sym ⟨.BUY, q, p⟩)).positions
            = alErase sym s.positions := by
          simp [executeTrade, fillOrder, hget, hz]
        have hz' : A + q = 0 := by rw [← hqt]; exact hz
        constructor
        · rw [hres, keyCount_alErase sym _ hcount]
          omega
        · rw [optQty, hres, alGet_alErase_self sym _ hcount, if_pos hz']
          rfl
      · have hres : (executeTrade s (fillOrder sym ⟨.BUY, q, p⟩)).positions
            = alSet sym ({ pos with
                average_price :=
                  (pos.average_price * pos.quantity_total + q * p)
                    / (pos.quantity_total + q)
                quantity_total := pos.quantity_total + q
                quantity_available := pos.quantity_total + q }) s.positions := by
          simp [executeTrade, fillOrder, hget, hz]
        have hz' : ¬ (A + q = 0) := by rw [← hqt]; exact hz
        constructor
        · rw [hres, keyCount_alSet sym _ _ hcount]
        · rw [optQty, hres, alGet_alSet_self, if_neg hz']
          simp [hqt]
  | SELL =>
    simp only [signedQty]
    rcases hget : alGet sym s.positions with _ | pos
    · have hA0 : A = 0 := by
        by_contra hA
        rw [optQty, hget, if_neg hA] at hinv
        exact Option.noConfusion hinv
      subst hA0
      have hres : (executeTrade s (fillOrder sym ⟨.SELL, q, p⟩)).positions
          = alSet sym ⟨sym, "NFO", -q, -q, p, 0⟩ s.positions := by
        simp [executeTrade, fillOrder, hget]
      constructor
      · rw [hres, keyCount_alSet sym _ _ hcount]
      · rw [optQty, hres, alGet_alSet_self, zero_add,
          if_neg (neg_ne_zero.mpr (ne_of_gt hq))]
        rfl
    · have hinv' : pos.quantity_total = A ∧ A ≠ 0 := by
        by_cases hA : A = 0
        · rw [optQty, hget, if_pos hA] at hinv
          exact absurd hinv (by simp)
        · rw [optQty, hget, if_neg hA] at hinv
          simp at hinv
          exact ⟨hinv, hA⟩
      obtain ⟨hqt, hAne⟩ := hinv'
      by_cases hz : pos.quantity_total - q = 0
      · have hres : (executeTrade s (fillOrder sym ⟨.SELL, q, p⟩)).positions
            = alErase sym s.positions := by
          simp [executeTrade, fillOrder, hget, hz]
        have hz' : A + -q = 0 := by rw [← hqt, ← sub_eq_add_neg]; exact hz
        constructor
        · rw [hres, keyCount_alErase sym _ hcount]
          omega
        · rw [optQty, hres, alGet_alErase_self sym _ hcount, if_pos hz']
          rfl
      · have hres : (executeTrade s (fillOrder sym ⟨.SELL, q, p⟩)).positions
            = alSet sym ({ pos with
                quantity_total := pos.quantity_total - q
                quantity_available := pos.quantity_total - q }) s.positions := by
          simp [executeTrade, fillOrder, hget, hz]
        have hz' : ¬ (A + -q = 0) := by
          rw [← hqt, ← sub_eq_add_neg]; exact hz
        constructor
        · rw [hres, keyCount_alSet sym _ _ hcount]
        · rw [optQty, hres, alGet_alSet_self, if_neg hz']
          simp [hqt, sub_eq_add_neg]

/-- Folding a fill list through `_execute_trade` adds the signed sum to the
stored quantity, with deletion exactly at zero. -/
theorem applyFills_optQty (sym : String) :
    ∀ (fills : List Fill), (∀ f ∈ fills, 0 < f.qty) →
    ∀ (s : DriverState) (A : ℚ), keyCount sym s.positions ≤ 1 →
      optQty s sym = (if A = 0 then none else some A) →
      keyCount sym (applyFills sym s fills).positions ≤ 1 ∧
      optQty (applyFills sym s fills) sym
        = if A + signedSum fills = 0 then none else some (A + signedSum fills) := by
  intro fills
  induction fills with
  | nil =>
    intro _ s A hc hi
    refine ⟨hc, ?_⟩
    simpa [applyFills, signedSum] using hi
  | cons f rest ih =>
    intro hpos s A hc hi
    have hstep := executeTrade_optQty_step s sym f (hpos f (by simp)) hc A hi
    have hrest := ih (fun g hg => hpos g (by simp [hg]))
      (executeTrade s (fillOrder sym f)) (A + signedQty f.side f.qty)
      hstep.1 hstep.2
    have hfold : applyFills sym s (f :: rest)
        = applyFills sym (executeTrade s (fillOrder sym f)) rest := by
      simp [applyFills]
    have hsum : A + signedSum (f :: rest)
        = A + signedQty f.side f.qty + signedSum rest := by
      simp [signedSum, add_assoc]
    rw [hfold, hsum]
    exact hrest

/-! ## Shared lemmas about the tick scheduler -/

theorem setCurrentTime_trades (d : DriverState) (t : ℕ) :
    (setCurrentTime d t).trades = d.trades := rfl

theorem setCurrentTime_orders (d : DriverState) (t : ℕ) :
    (setCurrentTime d t).orders = d.orders := rfl

theorem setPrice_trades (d : DriverState) (sym : String) (p : ℚ) :
    (setPrice d sym p).trades = d.trades := by
  simp only [setPrice]
  split <;> rfl

theorem setPrice_orders (d : DriverState) (sym : String) (p : ℚ) :
    (setPrice d sym p).orders = d.orders := by
  simp only [setPrice]
  split <;> rfl

theorem setPrice_mark_self (d : DriverState) (sym : String) (p : ℚ) :
    alGet sym (setPrice d sym p).current_prices = some p := by
  simp only [setPrice]
  split <;> exact alGet_alSet_self sym p d.current_prices

theorem refreshStep_trades (cfg : EngineConfig) (d : DriverState) (sym : String) :
    (refreshStep cfg d sym).trades = d.trades := by
  simp only [refreshStep]
  split_ifs <;> simp [setPrice_trades]

theorem refreshStep_orders (cfg : EngineConfig) (d : DriverState) (sym : String) :
    (refreshStep cfg d sym).orders = d.orders := by
  simp only [refreshStep]
  split_ifs <;> simp [setPrice_orders]

theorem refreshStep_mark (cfg : EngineConfig) (d : DriverState) (sym : String) :
    alGet cfg.index_symbol (refreshStep cfg d sym).current_prices
      = alGet cfg.index_symbol d.current_prices := by
  simp only [refreshStep]
  split_ifs with h1 h2
  · simp only [setPrice]
    split <;> exact alGet_alSet_other _ _ _ h1 _
  · rfl
  · rfl

theorem refreshFold_trades (cfg : EngineConfig) :
    ∀ (syms : List String) (d : DriverState),
      (syms.foldl (refreshStep cfg) d).trades = d.trades := by
  intro syms
  induction syms with
  | nil => intro d; rfl
  | cons sym rest ih =>
    intro d
    rw [List.foldl_cons, ih, refreshStep_trades]

theorem refreshFold_orders (cfg : EngineConfig) :
    ∀ (syms : List String) (d : DriverState),
      (syms.foldl (refreshStep cfg) d).orders = d.orders := by
  intro syms
  induction syms with
  | nil => intro d; rfl
  | cons sym rest ih =>
    intro d
    rw [List.foldl_cons, ih, refreshStep_orders]

theorem refreshFold_mark (cfg : EngineConfig) :
    ∀ (syms : List String) (d : DriverState),
      alGet cfg.index_symbol (syms.foldl (refreshStep cfg) d).current_prices
        = alGet cfg.index_symbol d.current_prices := by
  intro syms
  induction syms with
  | nil => intro d; rfl
  | cons sym rest ih =>
    intro d
    rw [List.foldl_cons, ih, refreshStep_mark]

theorem refreshHeldMarks_trades (cfg : EngineConfig) (d : DriverState) :
    (refreshHeldMarks cfg d).trades = d.trades :=
  refreshFold_trades cfg _ d

theorem refreshHeldMarks_orders (cfg : EngineConfig) (d : DriverState) :
    (refreshHeldMarks cfg d).orders = d.orders :=
  refreshFold_orders cfg _ d

theorem refreshHeldMarks_mark (cfg : EngineConfig) (d : DriverState) :
    alGet cfg.index_symbol (refreshHeldMarks cfg d).current_prices
      = alGet cfg.index_symbol d.current_prices :=
  refreshFold_mark cfg _ d

theorem resolvePrice_of_mark (s : DriverState) (sym : String) (p : ℚ)
    (h : alGet sym s.current_prices = some p) (hp : p ≠ 0) :
    resolvePrice s sym = p := by
  simp [resolvePrice, h, hp]

/-- A BUY whose price resolves succeeds and appends one order and one trade. -/
theorem placeOrder_buy_spec (s : DriverState) (req : OrderRequest)
    (hside : req.transaction_type = Side.BUY)
    (hp : resolvePrice s req.symbol ≠ 0) :
    (placeOrder s req).1.status = "ok" ∧
    (placeOrder s req).2.trades.length = s.trades.length + 1 ∧
    (placeOrder s req).2.orders.length = s.orders.length + 1 := by
  unfold placeOrder
  rw [if_neg hp, if_neg (by simp [hside])]
  refine ⟨rfl, ?_, ?_⟩
  · rw [executeTrade_trades]
    simp
  · rw [executeTrade_orders]
    simp

/-- Definitional characterization of one scheduler sub-tick. -/
theorem engineSubTick_spec (cfg : EngineConfig) (cb : Callback)
    (dateStr : String) (p : ℚ) (es : EngineState) :
    (engineSubTick cfg cb dateStr p es).1.driver
      = (if (alGet dateStr es.counts).getD 0 < cfg.max_trades_per_day then
           cb p dateStr (refreshHeldMarks cfg (setPrice es.driver cfg.index_symbol p))
         else refreshHeldMarks cfg (setPrice es.driver cfg.index_symbol p)) ∧
    (engineSubTick cfg cb dateStr p es).1.counts
      = (if (engineSubTick cfg cb dateStr p es).1.driver.trades.length
            > (refreshHeldMarks cfg (setPrice es.driver cfg.index_symbol p)).trades.length
         then alSet dateStr
           ((alGet dateStr es.counts).getD 0
             + ((engineSubTick cfg cb dateStr p es).1.driver.trades.length
                - (refreshHeldMarks cfg (setPrice es.driver cfg.index_symbol p)).trades.length))
           es.counts
         else es.counts) ∧
    (engineSubTick cfg cb dateStr p es).2
      = ⟨p, dateStr,
          decide ((alGet dateStr es.counts).getD 0 < cfg.max_trades_per_day)⟩ :=
  ⟨rfl, rfl, rfl⟩

/-- One scheduler sub-tick driving the one-order-per-tick callback: under
the ceiling it adds exactly one trade, one order and one throttle slot;
at or above the ceiling nothing reaches the driver. -/
theorem engineSubTick_oneOrder (cfg : EngineConfig) (dateStr : String) (p : ℚ)
    (hp : p ≠ 0) (es : EngineState) :
    ((alGet dateStr es.counts).getD 0 < cfg.max_trades_per_day →
      (engineSubTick cfg (oneOrderCb cfg.index_symbol) dateStr p es).1.driver.trades.length
        = es.driver.trades.length + 1 ∧
      (engineSubTick cfg (oneOrderCb cfg.index_symbol) dateStr p es).1.driver.orders.length
        = es.driver.orders.length + 1 ∧
      (engineSubTick cfg (oneOrderCb cfg.index_symbol) dateStr p es).1.counts
        = alSet dateStr ((alGet dateStr es.counts).getD 0 + 1) es.counts) ∧
    (¬ (alGet dateStr es.counts).getD 0 < cfg.max_trades_per_day →
      (engineSubTick cfg (oneOrderCb cfg.index_symbol) dateStr p es).1.driver.trades.length
        = es.driver.trades.length ∧
      (engineSubTick cfg (oneOrderCb cfg.index_symbol) dateStr p es).1.driver.orders.length
        = es.driver.orders.length ∧
      (engineSubTick cfg (oneOrderCb cfg.index_symbol) dateStr p es).1.counts
        = es.counts) ∧
    (engineSubTick cfg (oneOrderCb cfg.index_symbol) dateStr p es).2
      = ⟨p, dateStr,
          decide ((alGet dateStr es.counts).getD 0 < cfg.max_trades_per_day)⟩ := by
  obtain ⟨hdrv, hcnt, hev⟩ :=
    engineSubTick_spec cfg (oneOrderCb cfg.index_symbol) dateStr p es
  have htr : (refreshHeldMarks cfg (setPrice es.driver cfg.index_symbol p)).trades
      = es.driver.trades := by
    rw [refreshHeldMarks_trades, setPrice_trades]
  have hor : (refreshHeldMarks cfg (setPrice es.driver cfg.index_symbol p)).orders
      = es.driver.orders := by
    rw [refreshHeldMarks_orders, setPrice_orders]
  have hmark : alGet cfg.index_symbol
      (refreshHeldMarks cfg (setPrice es.driver cfg.index_symbol p)).current_prices
      = some p := by
    rw [refreshHeldMarks_mark, setPrice_mark_self]
  have hrp : resolvePrice (refreshHeldMarks cfg (setPrice es.driver cfg.index_symbol p))
      cfg.index_symbol = p :=
    resolvePrice_of_mark _ _ _ hmark hp
  refine ⟨?_, ?_, hev⟩
  · intro hlt
    rw [if_pos hlt] at hdrv
    have hps := placeOrder_buy_spec
      (refreshHeldMarks cfg (setPrice es.driver cfg.index_symbol p))
      (mkReq .BUY cfg.index_symbol 1) rfl (by rw [show (mkReq .BUY cfg.index_symbol 1).symbol = cfg.index_symbol from rfl, hrp]; exact hp)
    have hlen : (engineSubTick cfg (oneOrderCb cfg.index_symbol) dateStr p es).1.driver.trades.length
        = es.driver.trades.length + 1 := by
      rw [hdrv]
      show (placeOrder (refreshHeldMarks cfg (setPrice es.driver cfg.index_symbol p))
        (mkReq .BUY cfg.index_symbol 1)).2.trades.length = es.driver.trades.length + 1
      rw [hps.2.1, htr]
    have holen : (engineSubTick cfg (oneOrderCb cfg.index_symbol) dateStr p es).1.driver.orders.length
        = es.driver.orders.length + 1 := by
      rw [hdrv]
      show (placeOrder (refreshHeldMarks cfg (setPrice es.driver cfg.index_symbol p))
        (mkReq .BUY cfg.index_symbol 1)).2.orders.length = es.driver.orders.length + 1
      rw [hps.2.2, hor]
    refine ⟨hlen, holen, ?_⟩
    rw [hcnt, if_pos]
    · rw [hlen, htr]
      congr 1
      omega
    · rw [hlen, htr]
      omega
  · intro hge
    rw [if_neg hge] at hdrv
    have hlen : (engineSubTick cfg (oneOrderCb cfg.index_symbol) dateStr p es).1.driver.trades.length
        = es.driver.trades.length := by
      rw [hdrv, htr]
    have holen : (engineSubTick cfg (oneOrderCb cfg.index_symbol) dateStr p es).1.driver.orders.length
        = es.driver.orders.length := by
      rw [hdrv, hor]
    refine ⟨hlen, holen, ?_⟩
    rw [hcnt, if_neg]
    rw [hlen, htr]
    omega

/-- C6: for every finite sequence of BUY/SELL fills on one symbol run
through `_execute_trade` from a state with no stored position for it, the
stored quantity afterwards equals the signed sum of the fill quantities
(BUY positive, SELL negative), the symbol is absent from the positions map
exactly when that sum is zero, and a stored position never has quantity
exactly zero. -/
theorem c6_quantity_is_signed_sum (sym : String) (fills : List Fill)
    (hpos : ∀ f ∈ fills, 0 < f.qty) (s : DriverState)
    (hnone : alGet sym s.positions = none) :
    optQty (applyFills sym s fills) sym
      = (if signedSum fills = 0 then none else some (signedSum fills)) ∧
    (alGet sym (applyFills sym s fills).positions = none ↔ signedSum fills = 0) ∧
    (∀ pos : Position, alGet sym (applyFills sym s fills).positions = some pos →
      pos.quantity_total = signedSum fills ∧ pos.quantity_total ≠ 0) := by
  have hc : keyCount sym s.positions ≤ 1 := by
    rw [keyCount_zero_of_alGet_none sym _ hnone]
    omega
  have hi : optQty s sym = (if (0 : ℚ) = 0 then none else some 0) := by
    simp [optQty, hnone]
  have hmain := (applyFills_optQty sym fills hpos s 0 hc hi).2
  rw [zero_add] at hmain
  refine ⟨hmain, ⟨?_, ?_⟩, ?_⟩
  · intro hg
    by_contra hs
    rw [if_neg hs, optQty, hg] at hmain
    exact Option.noConfusion hmain
  · intro hs
    rw [if_pos hs, optQty] at hmain
    simpa using hmain
  · intro pos hg
    rw [optQty, hg] at hmain
    by_cases hs : signedSum fills = 0
    · rw [if_pos hs] at hmain
      exact absurd hmain (by simp)
    · rw [if_neg hs] at hmain
      simp only [Option.map] at hmain
      have : pos.quantity_total = signedSum fills := by
        simpa using hmain
      exact ⟨this, this ▸ hs⟩

/-- C6 witness: BUY 2 then two SELL 1 fills flatten the position and remove
the symbol. -/
theorem c6_quantity_is_signed_sum_witness :
    (∀ f ∈ [Fill.mk .BUY 2 10, Fill.mk .SELL 1 11, Fill.mk .SELL 1 12],
      0 < f.qty) ∧
    alGet "X" (DriverState.init 100000).positions = none ∧
    optQty (applyFills "X" (DriverState.init 100000)
      [Fill.mk .BUY 2 10, Fill.mk .SELL 1 11, Fill.mk .SELL 1 12]) "X" = none := by
  have hp : ∀ f ∈ [Fill.mk .BUY 2 10, Fill.mk .SELL 1 11, Fill.mk .SELL 1 12],
      0 < f.qty := by decide
  have h := (c6_quantity_is_signed_sum "X" _ hp (DriverState.init 100000) rfl).1
  have hs : signedSum [Fill.mk .BUY 2 10, Fill.mk .SELL 1 11, Fill.mk .SELL 1 12]
      = 0 := by
    norm_num [signedSum, signedQty]
  rw [hs, if_pos rfl] at h
  exact ⟨hp, rfl, h⟩

/-- Scenario run for the daily throttle: ceiling 5, a callback placing one
order per tick, and six sub-ticks on one calendar date. -/
theorem throttle_scenario_six_ticks :
    ((engineRun ⟨"NIF", 5⟩ (oneOrderCb "NIF")
      [⟨1, RowData.closeOnly 100⟩, ⟨2, RowData.ohlc 10 20 5 15⟩,
       ⟨2, RowData.closeOnly 11⟩, ⟨2, RowData.closeOnly 12⟩]
      ⟨[], DriverState.init 100000⟩).1.driver.trades.length = 5) ∧
    ((engineRun ⟨"NIF", 5⟩ (oneOrderCb "NIF")
      [⟨1, RowData.closeOnly 100⟩, ⟨2, RowData.ohlc 10 20 5 15⟩,
       ⟨2, RowData.closeOnly 11⟩, ⟨2, RowData.closeOnly 12⟩]
      ⟨[], DriverState.init 100000⟩).1.driver.orders.length = 5) ∧
    ((alGet (dateKey 2) (engineRun ⟨"NIF", 5⟩ (oneOrderCb "NIF")
      [⟨1, RowData.closeOnly 100⟩, ⟨2, RowData.ohlc 10 20 5 15⟩,
       ⟨2, RowData.closeOnly 11⟩, ⟨2, RowData.closeOnly 12⟩]
      ⟨[], DriverState.init 100000⟩).1.counts).getD 0 = 5) ∧
    (((engineRun ⟨"NIF", 5⟩ (oneOrderCb "NIF")
      [⟨1, RowData.closeOnly 100⟩, ⟨2, RowData.ohlc 10 20 5 15⟩,
       ⟨2, RowData.closeOnly 11⟩, ⟨2, RowData.closeOnly 12⟩]
      ⟨[], DriverState.init 100000⟩).2).map TickEvent.delivered
      = [true, true, true, true, true, false]) := by
  have hD1tr :
      (setPrice (setCurrentTime (setPrice (setCurrentTime
        (DriverState.init 100000) 1) "NIF" 100) 1) "NIF" 100).trades.length = 0 := by
    rw [setPrice_trades, setCurrentTime_trades, setPrice_trades, setCurrentTime_trades]
    rfl
  have hD1or :
      (setPrice (setCurrentTime (setPrice (setCurrentTime
        (DriverState.init 100000) 1) "NIF" 100) 1) "NIF" 100).orders.length = 0 := by
    rw [setPrice_orders, setCurrentTime_orders, setPrice_orders, setCurrentTime_orders]
    rfl
  set T2 := setCurrentTime (setPrice (setCurrentTime (setPrice (setCurrentTime
    (DriverState.init 100000) 1) "NIF" 100) 1) "NIF" 100) 2 with hT2
  have hT2tr : T2.trades.length = 0 := by rw [hT2, setCurrentTime_trades]; exact hD1tr
  have hT2or : T2.orders.length = 0 := by rw [hT2, setCurrentTime_orders]; exact hD1or
  set S1 := engineSubTick ⟨"NIF", 5⟩ (oneOrderCb "NIF") (dateKey 2) 10 ⟨[], T2⟩ with hS1d
  set S2 := engineSubTick ⟨"NIF", 5⟩ (oneOrderCb "NIF") (dateKey 2) 20 S1.1 with hS2d
  set S3 := engineSubTick ⟨"NIF", 5⟩ (oneOrderCb "NIF") (dateKey 2) 5 S2.1 with hS3d
  set S4 := engineSubTick ⟨"NIF", 5⟩ (oneOrderCb "NIF") (dateKey 2) 15 S3.1 with hS4d
  set S5 := engineSubTick ⟨"NIF", 5⟩ (oneOrderCb "NIF") (dateKey 2) 11
    ⟨S4.1.counts, setCurrentTime S4.1.driver 2⟩ with hS5d
  set S6 := engineSubTick ⟨"NIF", 5⟩ (oneOrderCb "NIF") (dateKey 2) 12
    ⟨S5.1.counts, setCurrentTime S5.1.driver 2⟩ with hS6d
  have hrun : engineRun ⟨"NIF", 5⟩ (oneOrderCb "NIF")
      [⟨1, RowData.closeOnly 100⟩, ⟨2, RowData.ohlc 10 20 5 15⟩,
       ⟨2, RowData.closeOnly 11⟩, ⟨2, RowData.closeOnly 12⟩]
      ⟨[], DriverState.init 100000⟩
      = (S6.1, [S1.2, S2.2, S3.2, S4.2, S5.2, S6.2]) := by
    rw [hS6d, hS5d, hS4d, hS3d, hS2d, hS1d, hT2]
    rfl
  have st1 := engineSubTick_oneOrder ⟨"NIF", 5⟩ (dateKey 2) 10 (by norm_num)
    ⟨[], T2⟩
  dsimp only at st1
  rw [← hS1d] at st1
  have h1 := st1.1 (by decide)
  have hc1 : (alGet (dateKey 2) S1.1.counts).getD 0 = 1 := by
    rw [h1.2.2, alGet_alSet_self]
    rfl
  have h1tr : S1.1.driver.trades.length = 1 := by rw [h1.1, hT2tr]
  have h1or : S1.1.driver.orders.length = 1 := by rw [h1.2.1, hT2or]
  have st2 := engineSubTick_oneOrder ⟨"NIF", 5⟩ (dateKey 2) 20 (by norm_num) S1.1
  dsimp only at st2
  rw [← hS2d] at st2
  rw [hc1] at st2
  have h2 := st2.1 (by omega)
  have hc2 : (alGet (dateKey 2) S2.1.counts).getD 0 = 2 := by
    rw [h2.2.2, alGet_alSet_self]
    rfl
  have h2tr : S2.1.driver.trades.length = 2 := by rw [h2.1, h1tr]
  have h2or : S2.1.driver.orders.length = 2 := by rw [h2.2.1, h1or]
  have st3 := engineSubTick_oneOrder ⟨"NIF", 5⟩ (dateKey 2) 5 (by norm_num) S2.1
  dsimp only at st3
  rw [← hS3d] at st3
  rw [hc2] at st3
  have h3 := st3.1 (by omega)
  have hc3 : (alGet (dateKey 2) S3.1.counts).getD 0 = 3 := by
    rw [h3.2.2, alGet_alSet_self]
    rfl
  have h3tr : S3.1.driver.trades.length = 3 := by rw [h3.1, h2tr]
  have h3or : S3.1.driver.orders.length = 3 := by rw [h3.2.1, h2or]
  have st4 := engineSubTick_oneOrder ⟨"NIF", 5⟩ (dateKey 2) 15 (by norm_num) S3.1
  dsimp only at st4
  rw [← hS4d] at st4
  rw [hc3] at st4
  have h4 := st4.1 (by omega)
  have hc4 : (alGet (dateKey 2) S4.1.counts).getD 0 = 4 := by
    rw [h4.2.2, alGet_alSet_self]
    rfl
  have h4tr : S4.1.driver.trades.length = 4 := by rw [h4.1, h3tr]
  have h4or : S4.1.driver.orders.length = 4 := by rw [h4.2.1, h3or]
  have st5 := engineSubTick_oneOrder ⟨"NIF", 5⟩ (dateKey 2) 11 (by norm_num)
    ⟨S4.1.counts, setCurrentTime S4.1.driver 2⟩
  dsimp only at st5
  rw [← hS5d] at st5
  rw [hc4] at st5
  have h5 := st5.1 (by omega)
  have hc5 : (alGet (dateKey 2) S5.1.counts).getD 0 = 5 := by
    rw [h5.2.2, alGet_alSet_self]
    rfl
  have h5tr : S5.1.driver.trades.length = 5 := by
    rw [h5.1, setCurrentTime_trades, h4tr]
  have h5or : S5.1.driver.orders.length = 5 := by
    rw [h5.2.1, setCurrentTime_orders, h4or]
  have st6 := engineSubTick_oneOrder ⟨"NIF", 5⟩ (dateKey 2) 12 (by norm_num)
    ⟨S5.1.counts, setCurrentTime S5.1.driver 2⟩
  dsimp only at st6
  rw [← hS6d] at st6
  rw [hc5] at st6
  have h6 := st6.2.1 (by omega)
  have hc6 : (alGet (dateKey 2) S6.1.counts).getD 0 = 5 := by
    rw [h6.2.2]
    exact hc5
  have h6tr : S6.1.driver.trades.length = 5 := by
    rw [h6.1, setCurrentTime_trades, h5tr]
  have h6or : S6.1.driver.orders.length = 5 := by
    rw [h6.2.1, setCurrentTime_orders, h5or]
  have hev1 : S1.2.delivered = true := by
    rw [st1.2.2]
    rfl
  have hev2 : S2.2.delivered = true := by
    rw [st2.2.2]
    rfl
  have hev3 : S3.2.delivered = true := by
    rw [st3.2.2]
    rfl
  have hev4 : S4.2.delivered = true := by
    rw [st4.2.2]
    rfl
  have hev5 : S5.2.delivered = true := by
    rw [st5.2.2]
    rfl
  have hev6 : S6.2.delivered = false := by
    rw [st6.2.2]
    rfl
  rw [hrun]
  refine ⟨h6tr, h6or, hc6, ?_⟩
  simp only [List.map]
  rw [hev1, hev2, hev3, hev4, hev5, hev6]

/-- C3: a sub-tick is delivered to the strategy callback exactly when the
day's recorded trade count is strictly below the ceiling; afterwards the
day's counter grows by exactly the trade-log delta (not by one); and in the
concrete scenario — ceiling 5, a callback placing one order per tick, six
ticks on one date — exactly five trades and five orders are recorded, the
day's counter ends at five, and the sixth tick is not delivered, never
reaching the driver. -/
theorem c3_daily_throttle_semantics :
    (∀ (cfg : EngineConfig) (cb : Callback) (dateStr : String) (p : ℚ)
        (es : EngineState),
      ((engineSubTick cfg cb dateStr p es).2.delivered = true
        ↔ (alGet dateStr es.counts).getD 0 < cfg.max_trades_per_day) ∧
      ((engineSubTick cfg cb dateStr p es).1.driver
        = (if (alGet dateStr es.counts).getD 0 < cfg.max_trades_per_day then
             cb p dateStr (refreshHeldMarks cfg (setPrice es.driver cfg.index_symbol p))
           else refreshHeldMarks cfg (setPrice es.driver cfg.index_symbol p))) ∧
      ((alGet dateStr (engineSubTick cfg cb dateStr p es).1.counts).getD 0
        = (alGet dateStr es.counts).getD 0
          + ((engineSubTick cfg cb dateStr p es).1.driver.trades.length
             - (refreshHeldMarks cfg (setPrice es.driver cfg.index_symbol p)).trades.length))) ∧
    ((engineRun ⟨"NIF", 5⟩ (oneOrderCb "NIF")
      [⟨1, RowData.closeOnly 100⟩, ⟨2, RowData.ohlc 10 20 5 15⟩,
       ⟨2, RowData.closeOnly 11⟩, ⟨2, RowData.closeOnly 12⟩]
      ⟨[], DriverState.init 100000⟩).1.driver.trades.length = 5 ∧
     (engineRun ⟨"NIF", 5⟩ (oneOrderCb "NIF")
      [⟨1, RowData.closeOnly 100⟩, ⟨2, RowData.ohlc 10 20 5 15⟩,
       ⟨2, RowData.closeOnly 11⟩, ⟨2, RowData.closeOnly 12⟩]
      ⟨[], DriverState.init 100000⟩).1.driver.orders.length = 5 ∧
     (alGet (dateKey 2) (engineRun ⟨"NIF", 5⟩ (oneOrderCb "NIF")
      [⟨1, RowData.closeOnly 100⟩, ⟨2, RowData.ohlc 10 20 5 15⟩,
       ⟨2, RowData.closeOnly 11⟩, ⟨2, RowData.closeOnly 12⟩]
      ⟨[], DriverState.init 100000⟩).1.counts).getD 0 = 5 ∧
     ((engineRun ⟨"NIF", 5⟩ (oneOrderCb "NIF")
      [⟨1, RowData.closeOnly 100⟩, ⟨2, RowData.ohlc 10 20 5 15⟩,
       ⟨2, RowData.closeOnly 11⟩, ⟨2, RowData.closeOnly 12⟩]
      ⟨[], DriverState.init 100000⟩).2).map TickEvent.delivered
      = [true, true, true, true, true, false]) := by
  constructor
  · intro cfg cb dateStr p es
    obtain ⟨hdrv, hcnt, hev⟩ := engineSubTick_spec cfg cb dateStr p es
    refine ⟨?_, hdrv, ?_⟩
    · rw [hev]
      simp
    · rw [hcnt]
      by_cases hgt : (engineSubTick cfg cb dateStr p es).1.driver.trades.length
          > (refreshHeldMarks cfg (setPrice es.driver cfg.index_symbol p)).trades.length
      · rw [if_pos hgt, alGet_alSet_self]
        rfl
      · rw [if_neg hgt]
        omega
  · exact ⟨throttle_scenario_six_ticks.1, throttle_scenario_six_ticks.2.1,
      throttle_scenario_six_ticks.2.2.1, throttle_scenario_six_ticks.2.2.2⟩

/-- C10: the ceiling bounds only delivery, not the recorded count — when the
day's count is under the ceiling and the delivered callback adds `k` trades,
all of them execute and the count becomes `count + k`, which can strictly
exceed the ceiling (ceiling 5, count 4, three orders on one tick gives 7). -/
theorem c10_daily_count_can_exceed_ceiling :
    (∀ (cfg : EngineConfig) (cb : Callback) (dateStr : String) (p : ℚ)
        (es : EngineState) (k : ℕ),
      (alGet dateStr es.counts).getD 0 < cfg.max_trades_per_day →
      (cb p dateStr (refreshHeldMarks cfg (setPrice es.driver cfg.index_symbol p))).trades.length
        = (refreshHeldMarks cfg (setPrice es.driver cfg.index_symbol p)).trades.length + k →
      (engineSubTick cfg cb dateStr p es).1.driver
          = cb p dateStr (refreshHeldMarks cfg (setPrice es.driver cfg.index_symbol p)) ∧
      (alGet dateStr (engineSubTick cfg cb dateStr p es).1.counts).getD 0
          = (alGet dateStr es.counts).getD 0 + k) ∧
    ((alGet "D" (engineSubTick ⟨"NIF", 5⟩ (threeOrderCb "NIF") "D" 10
        ⟨[("D", 4)], DriverState.init 100000⟩).1.counts).getD 0 = 7 ∧
     5 < 7) := by
  constructor
  · intro cfg cb dateStr p es k hlt hk
    obtain ⟨hdrv0, hcnt, hev⟩ := engineSubTick_spec cfg cb dateStr p es
    have hdrv : (engineSubTick cfg cb dateStr p es).1.driver
        = cb p dateStr (refreshHeldMarks cfg (setPrice es.driver cfg.index_symbol p)) := by
      rw [hdrv0, if_pos hlt]
    have hlen : (engineSubTick cfg cb dateStr p es).1.driver.trades.length
        = (refreshHeldMarks cfg (setPrice es.driver cfg.index_symbol p)).trades.length + k := by
      rw [hdrv]
      exact hk
    refine ⟨hdrv, ?_⟩
    rw [hcnt]
    by_cases hk0 : k = 0
    · subst hk0
      rw [if_neg (by rw [hlen]; omega)]
      omega
    · rw [if_pos (by rw [hlen]; omega), alGet_alSet_self]
      show (alGet dateStr es.counts).getD 0
          + ((engineSubTick cfg cb dateStr p es).1.driver.trades.length
             - (refreshHeldMarks cfg (setPrice es.driver cfg.index_symbol p)).trades.length)
          = (alGet dateStr es.counts).getD 0 + k
      rw [hlen]
      omega
  · constructor
    · norm_num [engineSubTick, refreshHeldMarks, refreshStep, threeOrderCb,
        placeOrder, resolvePrice, marginExceeded, getFunds, executeTrade,
        mkOrderEntry, setPrice, alGet, alSet, alErase, mkReq, DriverState.init,
        abs_of_pos, abs_of_nonpos]
    · omega

/-- C10 witness: the universal part applied to the concrete over-ceiling
tick. -/
theorem c10_daily_count_can_exceed_ceiling_witness :
    (alGet "D" (⟨[("D", 4)], DriverState.init 100000⟩ : EngineState).counts).getD 0 < 5 ∧
    (alGet "D" (engineSubTick ⟨"NIF", 5⟩ (threeOrderCb "NIF") "D" 10
        ⟨[("D", 4)], DriverState.init 100000⟩).1.counts).getD 0
      = (alGet "D" (⟨[("D", 4)], DriverState.init 100000⟩ : EngineState).counts).getD 0 + 3 := by
  have hlt : (alGet "D" (⟨[("D", 4)], DriverState.init 100000⟩ : EngineState).counts).getD 0
      < (⟨"NIF", 5⟩ : EngineConfig).max_trades_per_day := by decide
  have hk : (threeOrderCb "NIF" 10 "D" (refreshHeldMarks ⟨"NIF", 5⟩
        (setPrice (⟨[("D", 4)], DriverState.init 100000⟩ : EngineState).driver
          (⟨"NIF", 5⟩ : EngineConfig).index_symbol 10))).trades.length
      = (refreshHeldMarks ⟨"NIF", 5⟩
        (setPrice (⟨[("D", 4)], DriverState.init 100000⟩ : EngineState).driver
          (⟨"NIF", 5⟩ : EngineConfig).index_symbol 10)).trades.length + 3 := by
    norm_num [refreshHeldMarks, refreshStep, threeOrderCb, placeOrder,
      resolvePrice, marginExceeded, getFunds, executeTrade, mkOrderEntry,
      setPrice, alGet, alSet, alErase, mkReq, DriverState.init,
      abs_of_pos, abs_of_nonpos]
  exact ⟨hlt, (c10_daily_count_can_exceed_ceiling.1 ⟨"NIF", 5⟩ (threeOrderCb "NIF")
    "D" 10 ⟨[("D", 4)], DriverState.init 100000⟩ 3 hlt hk).2⟩

theorem engineSubTicks_prices (cfg : EngineConfig) (cb : Callback)
    (dateStr : String) :
    ∀ (ps : List ℚ) (es : EngineState),
      ((engineSubTicks cfg cb dateStr ps es).2).map TickEvent.price = ps := by
  intro ps
  induction ps with
  | nil => intro es; rfl
  | cons p rest ih =>
    intro es
    simp only [engineSubTicks, List.map]
    rw [ih]
    rfl

theorem engineLoop_false_prices (cfg : EngineConfig) (cb : Callback) :
    ∀ (rows : List Row) (es : EngineState),
      ((engineLoop cfg cb rows false es).2).map TickEvent.price
        = rowPrices rows := by
  intro rows
  induction rows with
  | nil => intro es; rfl
  | cons r rest ih =>
    intro es
    show (((engineSubTicks cfg cb (dateKey r.time) (subTickPrices r.data)
        ⟨es.counts, setCurrentTime es.driver r.time⟩).2
        ++ (engineLoop cfg cb rest false
          (engineSubTicks cfg cb (dateKey r.time) (subTickPrices r.data)
            ⟨es.counts, setCurrentTime es.driver r.time⟩).1).2)).map TickEvent.price
      = rowPrices (r :: rest)
    rw [List.map_append, engineSubTicks_prices, ih]
    rfl

/-- C8: consuming a non-empty row stream, the first row only re-seeds the
mark and the simulated clock (no event, no callback); thereafter the
generated sub-tick price trace is exactly the row stream's expansion, an
OHLC row expanding to Open, High, Low, Close in that order and a bare close
to a single tick; the concrete two-day scenario delivers exactly the four
sub-ticks of day two with zero trades recorded. -/
theorem c8_first_row_seeds_only_then_ohlc_order :
    (∀ (cfg : EngineConfig) (cb : Callback) (r0 : Row) (rest : List Row)
        (es : EngineState),
      engineRun cfg cb (r0 :: rest) es
        = engineLoop cfg cb rest false
            ⟨es.counts,
             setPrice (setCurrentTime (setPrice (setCurrentTime es.driver r0.time)
               cfg.index_symbol (rowClose r0.data)) r0.time)
               cfg.index_symbol (rowClose r0.data)⟩) ∧
    (∀ (cfg : EngineConfig) (cb : Callback) (rows : List Row) (es : EngineState),
      ((engineLoop cfg cb rows false es).2).map TickEvent.price = rowPrices rows) ∧
    (∀ o hi lo c : ℚ, subTickPrices (RowData.ohlc o hi lo c) = [o, hi, lo, c]) ∧
    (∀ c : ℚ, subTickPrices (RowData.closeOnly c) = [c]) ∧
    (((engineRun ⟨"NIF", 5⟩ idleCb
        [⟨1, RowData.closeOnly 20000⟩, ⟨2, RowData.ohlc 20010 20050 19990 20005⟩]
        ⟨[], DriverState.init 100000⟩).2).map TickEvent.price
      = [20010, 20050, 19990, 20005] ∧
     ((engineRun ⟨"NIF", 5⟩ idleCb
        [⟨1, RowData.closeOnly 20000⟩, ⟨2, RowData.ohlc 20010 20050 19990 20005⟩]
        ⟨[], DriverState.init 100000⟩).2).map TickEvent.delivered
      = [true, true, true, true] ∧
     (engineRun ⟨"NIF", 5⟩ idleCb
        [⟨1, RowData.closeOnly 20000⟩, ⟨2, RowData.ohlc 20010 20050 19990 20005⟩]
        ⟨[], DriverState.init 100000⟩).1.driver.trades.length = 0 ∧
     alGet "NIF" (engineRun ⟨"NIF", 5⟩ idleCb
        [⟨1, RowData.closeOnly 20000⟩, ⟨2, RowData.ohlc 20010 20050 19990 20005⟩]
        ⟨[], DriverState.init 100000⟩).1.driver.current_prices = some 20005) := by
  refine ⟨?_, ?_, ?_, ?_, ?_⟩
  · intro cfg cb r0 rest es
    rfl
  · exact engineLoop_false_prices
  · intro o hi lo c
    rfl
  · intro c
    rfl
  · refine ⟨?_, ?_, ?_, ?_⟩ <;>
      norm_num [engineRun, engineLoop, engineSubTicks, engineSubTick,
        refreshHeldMarks, refreshStep, idleCb, subTickPrices, rowClose,
        setCurrentTime, setPrice, alGet, alSet, alErase, DriverState.init]

/-- Rows surviving the near-month filter all carry the snapshot's expiry. -/
theorem buildSnapshot_expiry (a b : List OptRow) (d : ℕ) :
    ∀ r ∈ (buildSnapshot a b d).ce ++ (buildSnapshot a b d).pe,
      some r.expiry = (buildSnapshot a b d).expiry := by
  intro r hr
  cases hmin : (a.map (fun row => row.expiry)).min? with
  | none =>
    simp only [buildSnapshot, hmin] at hr
    simp at hr
  | some e =>
    simp only [buildSnapshot, hmin] at hr ⊢
    simp only [List.mem_append, List.mem_filter, decide_eq_true_eq] at hr
    rcases hr with ⟨_, h⟩ | ⟨_, h⟩ <;> rw [h]

/-- C5 (counterexample): a date on which both tables are empty, where the
PE table has data on an earlier date but the CE table has none at all —
the claim demands the earlier snapshot, the code returns `none` because its
fallback consults only the CE table's dates. -/
theorem c5_counterexample_pe_only_data :
    getOptionChain
      { index_data := none
        ce_data := some []
        pe_data := some [{ date := 4, expiry := 40, strike := 100,
                           ltp := Cell.num 1, close := Cell.num 1 }] } 5 = none ∧
    (4 : ℕ) ≤ 5 := by
  constructor
  · rfl
  · omega

/-- C5 (amended): when both tables have zero rows for the requested date,
`get_option_chain` falls back to the most recent **CE-table** date `≤` the
request, returning `none` exactly when the CE table has no such date (even
if the PE table does); and every row of a returned snapshot carries the
snapshot's near-month expiry, the minimum of the chosen date's CE expiries. -/
theorem c5_fallback_follows_ce_dates (idx : Option (List IndexRow))
    (ce pe : List OptRow) (d : ℕ)
    (hce : (ce.filter (fun r => r.date = d)).isEmpty = true)
    (hpe : (pe.filter (fun r => r.date = d)).isEmpty = true) :
    (getOptionChain ⟨idx, some ce, some pe⟩ d
      = match ((ce.filter (fun r => r.date ≤ d)).map (fun r => r.date)).max? with
        | none => none
        | some ld => some (buildSnapshot (ce.filter (fun r => r.date = ld))
            (pe.filter (fun r => r.date = ld)) d)) ∧
    (∀ (prov : CsvProvider) (dq : ℕ) (snap : ChainSnapshot),
      getOptionChain prov dq = some snap →
      ∀ r ∈ snap.ce ++ snap.pe, some r.expiry = snap.expiry) := by
  constructor
  · simp only [getOptionChain]
    rw [if_pos ⟨by rw [hce], by rw [hpe]⟩]
  · intro prov dq snap hsnap r hr
    obtain ⟨pidx, pce, ppe⟩ := prov
    cases pce with
    | none => exact absurd hsnap (by simp [getOptionChain])
    | some tce =>
      cases ppe with
      | none => exact absurd hsnap (by simp [getOptionChain])
      | some tpe =>
        simp only [getOptionChain] at hsnap
        split at hsnap
        · rename_i hboth
          cases hmax : ((tce.filter (fun r => r.date ≤ dq)).map
              (fun r => r.date)).max? with
          | none =>
            rw [hmax] at hsnap
            exact absurd hsnap (by simp)
          | some ld =>
            rw [hmax] at hsnap
            have hs := Option.some.inj hsnap
            subst hs
            exact buildSnapshot_expiry _ _ _ r hr
        · have hs := Option.some.inj hsnap
          subst hs
          exact buildSnapshot_expiry _ _ _ r hr

/-- C5 witness: both tables empty on the requested date, CE data on an
earlier date, giving the fallback snapshot. -/
theorem c5_fallback_follows_ce_dates_witness :
    (([(⟨3, 10, 100, Cell.num 1, Cell.num 1⟩ : OptRow),
       ⟨3, 12, 100, Cell.num 1, Cell.num 1⟩].filter
        (fun r => r.date = 5)).isEmpty = true) ∧
    (([(⟨3, 10, 200, Cell.num 1, Cell.num 1⟩ : OptRow)].filter
        (fun r => r.date = 5)).isEmpty = true) ∧
    getOptionChain
      ⟨none,
       some [⟨3, 10, 100, Cell.num 1, Cell.num 1⟩,
             ⟨3, 12, 100, Cell.num 1, Cell.num 1⟩],
       some [⟨3, 10, 200, Cell.num 1, Cell.num 1⟩]⟩ 5
      = some { ce := [⟨3, 10, 100, Cell.num 1, Cell.num 1⟩]
               pe := [⟨3, 10, 200, Cell.num 1, Cell.num 1⟩]
               date := 3
               expiry := some 10 } := by
  have h := (c5_fallback_follows_ce_dates none
    [⟨3, 10, 100, Cell.num 1, Cell.num 1⟩, ⟨3, 12, 100, Cell.num 1, Cell.num 1⟩]
    [⟨3, 10, 200, Cell.num 1, Cell.num 1⟩] 5 (by decide) (by decide)).1
  refine ⟨by decide, by decide, ?_⟩
  rw [h]
  decide

/-- C7 (counterexample): a found row whose LTP is the non-numeric,
non-blank text `"abc"` and whose Close is `7` — the claim demands the Close
value `7`, the code's bare `except` returns the `0.0` sentinel. -/
theorem c7_counterexample_nonnumeric_ltp :
    parseOptionSymbol "NIFTY26FEB100CE" = some (100, true) ∧
    getOptionPrice
      { index_data := none
        ce_data := some [{ date := 5, expiry := 40, strike := 100,
                           ltp := Cell.junk "abc", close := Cell.num 7 }]
        pe_data := some [] } "NIFTY26FEB100CE" 5 = 0 ∧
    (0 : ℚ) ≠ 7 := by
  refine ⟨by decide, by decide, by norm_num⟩

/-- C7 (amended): with the row found by exact `(date, strike)` match or the
fallback date, `get_option_price` returns the LTP when it is a nonzero
number; it returns the numeric Close when the LTP is blank (`"-"`) or the
number zero; a non-numeric non-blank LTP yields the `0.0` sentinel (not
Close); and an unparseable symbol or an absent row yields `0.0`. -/
theorem c7_ltp_close_preference (prov : CsvProvider) (sym : String) (d : ℕ) :
    (parseOptionSymbol sym = none → getOptionPrice prov sym d = 0) ∧
    (∀ (strike : ℚ) (isCE : Bool) (rows : List OptRow),
      parseOptionSymbol sym = some (strike, isCE) →
      (if isCE then prov.ce_data else prov.pe_data) = some rows →
      (selectPriceRow rows strike d = none → getOptionPrice prov sym d = 0) ∧
      (∀ row : OptRow, selectPriceRow rows strike d = some row →
        (∀ q : ℚ, row.ltp = Cell.num q → q ≠ 0 → getOptionPrice prov sym d = q) ∧
        (∀ q : ℚ, (row.ltp = Cell.junk "-" ∨ row.ltp = Cell.num 0) →
          row.close = Cell.num q → getOptionPrice prov sym d = q) ∧
        (∀ t : String, row.ltp = Cell.junk t → t ≠ "-" →
          getOptionPrice prov sym d = 0))) := by
  constructor
  · intro hp
    simp [getOptionPrice, hp]
  · intro strike isCE rows hp htab
    have hred : getOptionPrice prov sym d
        = (match selectPriceRow rows strike d with
           | none => 0
           | some row => priceFromRow row) := by
      simp only [getOptionPrice, hp]
      rw [htab]
    constructor
    · intro hsel
      rw [hred, hsel]
    · intro row hsel
      have hrow : getOptionPrice prov sym d = priceFromRow row := by
        rw [hred, hsel]
      refine ⟨?_, ?_, ?_⟩
      · intro q hltp hq0
        rw [hrow]
        simp [priceFromRow, Cell.pyEqDash, Cell.pyEqZero, Cell.pyFloat, hltp, hq0]
      · intro q hltp hclose
        rw [hrow]
        rcases hltp with h | h <;>
          simp [priceFromRow, Cell.pyEqDash, Cell.pyEqZero, Cell.pyFloat,
            h, hclose]
      · intro t hltp ht
        rw [hrow]
        simp [priceFromRow, Cell.pyEqDash, Cell.pyEqZero, Cell.pyFloat, hltp, ht]

/-- C7 witness: a found row with a nonzero numeric LTP returns that LTP. -/
theorem c7_ltp_close_preference_witness :
    parseOptionSymbol "NIFTY26FEB100CE" = some (100, true) ∧
    selectPriceRow [⟨5, 40, 100, Cell.num 7, Cell.num 9⟩] 100 5
      = some ⟨5, 40, 100, Cell.num 7, Cell.num 9⟩ ∧
    getOptionPrice ⟨none, some [⟨5, 40, 100, Cell.num 7, Cell.num 9⟩], some []⟩
      "NIFTY26FEB100CE" 5 = 7 := by
  have h := ((c7_ltp_close_preference
      ⟨none, some [⟨5, 40, 100, Cell.num 7, Cell.num 9⟩], some []⟩
      "NIFTY26FEB100CE" 5).2 100 true [⟨5, 40, 100, Cell.num 7, Cell.num 9⟩]
      (by decide) rfl).2 ⟨5, 40, 100, Cell.num 7, Cell.num 9⟩ (by decide)
  exact ⟨by decide, by decide, h.1 7 rfl (by norm_num)⟩

/-- Any single gate call leaves a latched halt latched. -/
theorem gateOp_keeps_halt (s : RiskState) (hh : s.is_halted = true) (op : GateOp) :
    (applyGateOp s op).is_halted = true := by
  cases op with
  | update r u =>
    simp only [applyGateOp, updateGlobalPnl]
    split <;> simp [hh]
  | place now req =>
    simp only [applyGateOp, riskPlaceOrder, hh]
    simpa using hh
  | cancel oid =>
    simpa [applyGateOp, riskCancelOrder] using hh

/-- Any sequence of gate calls leaves a latched halt latched. -/
theorem gateOps_keep_halt :
    ∀ (ops : List GateOp) (s : RiskState), s.is_halted = true →
      (applyGateOps s ops).is_halted = true := by
  intro ops
  induction ops with
  | nil => intro s hh; exact hh
  | cons op rest ih =>
    intro s hh
    exact ih (applyGateOp s op) (gateOp_keeps_halt s hh op)

/-- C4: with threshold 5000, one `update_global_pnl(-5001, 0)` halts a fresh
gate; a halted gate rejects every `place_order` without forwarding and
without state change; no later sequence of gate calls (positive P&L updates
included) ever unsets the halt; and `cancel_order` is always forwarded. -/
theorem c4_drawdown_halt_is_permanent :
    ((updateGlobalPnl RiskState.init (-5001) 0).is_halted = true) ∧
    (∀ (s : RiskState), s.is_halted = true → ∀ (now : ℚ) (req : OrderRequest),
      riskPlaceOrder s now req = (.rejected "Risk System Halted", s)) ∧
    (∀ (s : RiskState), s.is_halted = true → ∀ (ops : List GateOp),
      (applyGateOps s ops).is_halted = true) ∧
    (∀ (s : RiskState) (oid : String),
      riskCancelOrder s oid = (.forwardedCancel oid, s)) := by
  refine ⟨?_, ?_, ?_, ?_⟩
  · norm_num [updateGlobalPnl, RiskState.init, abs_of_pos]
  · intro s hh now req
    simp [riskPlaceOrder, hh]
  · intro s hh ops
    exact gateOps_keep_halt ops s hh
  · intro s oid
    rfl

/-- C4 witness: the latched gate at work on concrete calls. -/
theorem c4_drawdown_halt_is_permanent_witness :
    (updateGlobalPnl RiskState.init (-5001) 0).is_halted = true ∧
    riskPlaceOrder (updateGlobalPnl RiskState.init (-5001) 0) 0 (mkReq .BUY "Z" 1)
      = (.rejected "Risk System Halted", updateGlobalPnl RiskState.init (-5001) 0) ∧
    (applyGateOps (updateGlobalPnl RiskState.init (-5001) 0)
      [.update 9999 0, .place 1 (mkReq .BUY "Z" 1), .cancel "id"]).is_halted = true ∧
    riskCancelOrder (updateGlobalPnl RiskState.init (-5001) 0) "id"
      = (.forwardedCancel "id", updateGlobalPnl RiskState.init (-5001) 0) := by
  have hh := c4_drawdown_halt_is_permanent.1
  exact ⟨hh, c4_drawdown_halt_is_permanent.2.1 _ hh 0 _,
    c4_drawdown_halt_is_permanent.2.2.1 _ hh _,
    c4_drawdown_halt_is_permanent.2.2.2 _ "id"⟩

end Backtest
